import Mathlib

/-!
Verification of the MAPMF retriever/normalizer pipeline
(`mapmf_scraper.py` / `mapmf_cleaner.py`).

The Python values flowing through the pandas pipeline are modelled by
`PyVal`; a dataframe is a `Table` (a list of column names plus rows of
association lists).  Missing values (`NaN`/`None`/`NaT`) are modelled by
`PyVal.none`; a parsed `pd.Timestamp` is `PyVal.date`.
-/

namespace Mapmf

/-- A calendar date as produced by `pd.to_datetime` (time-of-day is always
midnight in this dataset, so it is not modelled). -/
structure SimpleDate where
  year : Nat
  month : Nat
  day : Nat
deriving DecidableEq, Repr

/-- A Python value as it occurs in a dataframe cell. -/
inductive PyVal where
  | none
  | bool (b : Bool)
  | int (n : Int)
  | str (s : String)
  | date (d : SimpleDate)
  | list (xs : List PyVal)
  | dict (kvs : List (PyVal × PyVal))
deriving Repr

mutual

/-- Structural (Python `==`-style) equality on cell values is decidable. -/
def PyVal.decEq : (a b : PyVal) → Decidable (a = b)
  | .none, .none => isTrue rfl
  | .bool a, .bool b =>
    if h : a = b then isTrue (by rw [h]) else isFalse (by intro hc; injection hc; contradiction)
  | .int a, .int b =>
    if h : a = b then isTrue (by rw [h]) else isFalse (by intro hc; injection hc; contradiction)
  | .str a, .str b =>
    if h : a = b then isTrue (by rw [h]) else isFalse (by intro hc; injection hc; contradiction)
  | .date a, .date b =>
    if h : a = b then isTrue (by rw [h]) else isFalse (by intro hc; injection hc; contradiction)
  | .list xs, .list ys =>
    match PyVal.decEqList xs ys with
    | isTrue h => isTrue (by rw [h])
    | isFalse h => isFalse (by intro hc; injection hc; contradiction)
  | .dict xs, .dict ys =>
    match PyVal.decEqDict xs ys with
    | isTrue h => isTrue (by rw [h])
    | isFalse h => isFalse (by intro hc; injection hc; contradiction)
  | .none, .bool _ | .none, .int _ | .none, .str _ | .none, .date _ | .none, .list _
  | .none, .dict _
  | .bool _, .none | .bool _, .int _ | .bool _, .str _ | .bool _, .date _ | .bool _, .list _
  | .bool _, .dict _
  | .int _, .none | .int _, .bool _ | .int _, .str _ | .int _, .date _ | .int _, .list _
  | .int _, .dict _
  | .str _, .none | .str _, .bool _ | .str _, .int _ | .str _, .date _ | .str _, .list _
  | .str _, .dict _
  | .date _, .none | .date _, .bool _ | .date _, .int _ | .date _, .str _ | .date _, .list _
  | .date _, .dict _
  | .list _, .none | .list _, .bool _ | .list _, .int _ | .list _, .str _ | .list _, .date _
  | .list _, .dict _
  | .dict _, .none | .dict _, .bool _ | .dict _, .int _ | .dict _, .str _ | .dict _, .date _
  | .dict _, .list _ => isFalse (fun hc => PyVal.noConfusion hc)

def PyVal.decEqList : (xs ys : List PyVal) → Decidable (xs = ys)
  | [], [] => isTrue rfl
  | [], _ :: _ => isFalse (fun h => List.noConfusion h)
  | _ :: _, [] => isFalse (fun h => List.noConfusion h)
  | x :: xs, y :: ys =>
    match PyVal.decEq x y with
    | isFalse h => isFalse (by intro hc; injection hc; contradiction)
    | isTrue h =>
      match PyVal.decEqList xs ys with
      | isFalse h2 => isFalse (by intro hc; injection hc; contradiction)
      | isTrue h2 => isTrue (by rw [h, h2])

def PyVal.decEqDict : (xs ys : List (PyVal × PyVal)) → Decidable (xs = ys)
  | [], [] => isTrue rfl
  | [], _ :: _ => isFalse (fun h => List.noConfusion h)
  | _ :: _, [] => isFalse (fun h => List.noConfusion h)
  | (k, v) :: xs, (l, w) :: ys =>
    match PyVal.decEq k l with
    | isFalse h => isFalse (by
        intro hc; injection hc with hd _; exact h (congrArg Prod.fst hd))
    | isTrue h =>
      match PyVal.decEq v w with
      | isFalse h2 => isFalse (by
          intro hc; injection hc with hd _; exact h2 (congrArg Prod.snd hd))
      | isTrue h2 =>
        match PyVal.decEqDict xs ys with
        | isFalse h3 => isFalse (by intro hc; injection hc; contradiction)
        | isTrue h3 => isTrue (by rw [h, h2, h3])

end

instance : DecidableEq PyVal := PyVal.decEq

/-! ## Basic Python semantics helpers -/

/-- `pd.isna` on a scalar cell: only the missing value is NA. -/
def pd_isna : PyVal → Bool
  | .none => true
  | _ => false

/-- Python truthiness (`if g` on a cell value). -/
def pyTruthy : PyVal → Bool
  | .none => false
  | .bool b => b
  | .int n => n != 0
  | .str s => !s.isEmpty
  | .date _ => true
  | .list xs => !xs.isEmpty
  | .dict kvs => !kvs.isEmpty

/-- ASCII lowering, as `str.lower` acts on this dataset's ASCII text. -/
def lowerStr (s : String) : String := String.mk (s.toList.map Char.toLower)

def listIsPre : List Char → List Char → Bool
  | [], _ => true
  | _ :: _, [] => false
  | a :: as, b :: bs => a == b && listIsPre as bs

def containsSub (needle : List Char) : List Char → Bool
  | [] => needle.isEmpty
  | c :: rest => listIsPre needle (c :: rest) || containsSub needle rest

/-- Python's substring test `needle in hay`. -/
def substrIn (needle hay : String) : Bool := containsSub needle.toList hay.toList

def lbraceChar : Char := Char.ofNat 123

def rbraceChar : Char := Char.ofNat 125

def pad2 (n : Nat) : String := if n < 10 then "0" ++ toString n else toString n

/-- ISO rendering of a date, as `str()` of a midnight `pd.Timestamp`. -/
def dateStr (d : SimpleDate) : String :=
  toString d.year ++ "-" ++ pad2 d.month ++ "-" ++ pad2 d.day ++ " 00:00:00"

mutual

/-- Python `repr` of a value (string and container cases simplified to the
forms occurring in this dataset: single-quoted strings, `, ` separators). -/
def pyRepr : PyVal → String
  | .none => "None"
  | .bool true => "True"
  | .bool false => "False"
  | .int n => toString n
  | .str s => "'" ++ s ++ "'"
  | .date d => "Timestamp('" ++ dateStr d ++ "')"
  | .list xs => "[" ++ pyReprList xs ++ "]"
  | .dict kvs =>
    String.singleton lbraceChar ++ pyReprEntries kvs ++ String.singleton rbraceChar

def pyReprList : List PyVal → String
  | [] => ""
  | [x] => pyRepr x
  | x :: y :: rest => pyRepr x ++ ", " ++ pyReprList (y :: rest)

def pyReprEntries : List (PyVal × PyVal) → String
  | [] => ""
  | [(k, v)] => pyRepr k ++ ": " ++ pyRepr v
  | (k, v) :: e :: rest => pyRepr k ++ ": " ++ pyRepr v ++ ", " ++ pyReprEntries (e :: rest)

end

/-- Python `str()` of a value. -/
def pyStr : PyVal → String
  | .str s => s
  | v => pyRepr v

/-! ## `ast.literal_eval`

Modelled as a recursive-descent parser over the literal forms that occur in
the scraped CSV: `None`/`True`/`False`, integers, quoted strings, lists and
dicts.  Anything else (bare identifiers, operators such as `A | B`, floats,
the empty string) fails to parse, which the cleaner's callers catch as
`ValueError`/`SyntaxError`. -/

def isPySpaceChar (c : Char) : Bool :=
  c == ' ' || c == '\t' || c == '\n' || c == '\r' ||
    c == Char.ofNat 11 || c == Char.ofNat 12 || c == Char.ofNat 160

def skipWs : List Char → List Char
  | [] => []
  | c :: rest => if isPySpaceChar c then skipWs rest else c :: rest

def escChar (c : Char) : String :=
  if c == 'n' then "\n"
  else if c == 't' then "\t"
  else if c == 'r' then "\r"
  else if c == '\\' then "\\"
  else if c == '\'' then "'"
  else if c == '"' then "\""
  else "\\" ++ String.singleton c

/-- Body of a quoted string literal, after the opening quote `q`. -/
def parseStrLit (q : Char) : List Char → Option (String × List Char)
  | [] => Option.none
  | ['\\'] => Option.none
  | '\\' :: e :: rest => (parseStrLit q rest).map (fun p => (escChar e ++ p.1, p.2))
  | c :: rest =>
    if c == q then some ("", rest)
    else (parseStrLit q rest).map (fun p => (String.singleton c ++ p.1, p.2))

def digitsToNat (acc : Nat) : List Char → Nat × List Char
  | [] => (acc, [])
  | c :: rest =>
    if c.isDigit then digitsToNat (acc * 10 + (c.toNat - 48)) rest else (acc, c :: rest)

mutual

def parseVal : Nat → List Char → Option (PyVal × List Char)
  | 0, _ => Option.none
  | fuel + 1, cs =>
    match skipWs cs with
    | [] => Option.none
    | 'N' :: 'o' :: 'n' :: 'e' :: rest => some (.none, rest)
    | 'T' :: 'r' :: 'u' :: 'e' :: rest => some (.bool true, rest)
    | 'F' :: 'a' :: 'l' :: 's' :: 'e' :: rest => some (.bool false, rest)
    | '[' :: rest =>
      (match skipWs rest with
       | ']' :: rest2 => some (.list [], rest2)
       | rest2 => (parseElems fuel rest2).map (fun p => (.list p.1, p.2)))
    | '\'' :: rest => (parseStrLit '\'' rest).map (fun p => (.str p.1, p.2))
    | '"' :: rest => (parseStrLit '"' rest).map (fun p => (.str p.1, p.2))
    | '-' :: d :: rest =>
      if d.isDigit then
        (fun p => some (.int (-(p.1 : Int)), p.2)) (digitsToNat 0 (d :: rest))
      else Option.none
    | c :: rest =>
      if c == lbraceChar then
        match skipWs rest with
        | [] => Option.none
        | d :: rest2 =>
          if d == rbraceChar then some (.dict [], rest2)
          else (parseEntries fuel (d :: rest2)).map (fun p => (.dict p.1, p.2))
      else if c.isDigit then
        (fun p => some (.int (p.1 : Int), p.2)) (digitsToNat 0 (c :: rest))
      else Option.none

def parseElems : Nat → List Char → Option (List PyVal × List Char)
  | 0, _ => Option.none
  | fuel + 1, cs =>
    match parseVal fuel cs with
    | Option.none => Option.none
    | some (v, rest) =>
      match skipWs rest with
      | ',' :: rest2 =>
        (match skipWs rest2 with
         | ']' :: rest3 => some ([v], rest3)
         | rest3 => (parseElems fuel rest3).map (fun p => (v :: p.1, p.2)))
      | ']' :: rest2 => some ([v], rest2)
      | _ => Option.none

def parseEntries : Nat → List Char → Option (List (PyVal × PyVal) × List Char)
  | 0, _ => Option.none
  | fuel + 1, cs =>
    match parseVal fuel cs with
    | Option.none => Option.none
    | some (k, rest) =>
      match skipWs rest with
      | ':' :: rest2 =>
        match parseVal fuel rest2 with
        | Option.none => Option.none
        | some (v, rest3) =>
          match skipWs rest3 with
          | ',' :: rest4 =>
            (match skipWs rest4 with
             | e :: rest5 =>
               if e == rbraceChar then some ([(k, v)], rest5)
               else (parseEntries fuel (e :: rest5)).map (fun p => ((k, v) :: p.1, p.2))
             | [] => Option.none)
          | e :: rest4 =>
            if e == rbraceChar then some ([(k, v)], rest4) else Option.none
          | [] => Option.none
      | _ => Option.none

end

/-- `ast.literal_eval` on a string: parse a literal expression and require
the whole input to be consumed. -/
def literal_eval (s : String) : Option PyVal :=
  match parseVal (2 * s.length + 2) s.toList with
  | some (v, rest) => if (skipWs rest).isEmpty then some v else Option.none
  | Option.none => Option.none

/-! ## `mapmf_cleaner.py`: the module-level helpers -/

/-- `parse_list_column`: convert string representation of list to actual
list or return empty list.  `ast.literal_eval` raises `ValueError` on a
non-string argument and `ValueError`/`SyntaxError` on unparseable text,
both of which the `except` clause turns into `[]`; note that when the text
parses to a non-list literal, that value is returned unchanged. -/
def parse_list_column (value : PyVal) : PyVal :=
  if pd_isna value then .list []
  else match value with
    | .list xs => .list xs
    | .str s =>
      match literal_eval s with
      | some v => v
      | Option.none => .list []
    | _ => .list []

/-- `list_to_pipe_separated`: convert list to pipe-separated string. -/
def list_to_pipe_separated (value : PyVal) : PyVal :=
  match value with
  | .list xs => .str (String.intercalate " | " (xs.map pyStr))
  | v => v

/-- `html.unescape` restricted to the named/numeric entities that occur in
the scraped text. -/
def unescapeChars : List Char → List Char
  | [] => []
  | '&' :: 'a' :: 'm' :: 'p' :: ';' :: rest => '&' :: unescapeChars rest
  | '&' :: 'l' :: 't' :: ';' :: rest => '<' :: unescapeChars rest
  | '&' :: 'g' :: 't' :: ';' :: rest => '>' :: unescapeChars rest
  | '&' :: 'q' :: 'u' :: 'o' :: 't' :: ';' :: rest => '"' :: unescapeChars rest
  | '&' :: '#' :: '3' :: '9' :: ';' :: rest => '\'' :: unescapeChars rest
  | '&' :: 'n' :: 'b' :: 's' :: 'p' :: ';' :: rest => Char.ofNat 160 :: unescapeChars rest
  | c :: rest => c :: unescapeChars rest

/-- One pass of `re.sub` with pattern `\s+` and replacement a single space:
every whitespace character becomes a space ... -/
def wsToSpace (c : Char) : Char := if isPySpaceChar c then ' ' else c

/-- ... and runs of spaces are then squeezed to one. -/
def squeezeSpaces : List Char → List Char
  | [] => []
  | [c] => [c]
  | a :: b :: rest =>
    if a == ' ' && b == ' ' then squeezeSpaces (b :: rest)
    else a :: squeezeSpaces (b :: rest)

/-- Python `str.strip` after whitespace collapsing (only spaces remain). -/
def stripSpaces (cs : List Char) : List Char :=
  ((cs.dropWhile (fun c => c == ' ')).reverse.dropWhile (fun c => c == ' ')).reverse

/-- `clean_text`: empty string for missing values, otherwise HTML-entity
decoding, whitespace collapsing and stripping. -/
def clean_text (text : PyVal) : PyVal :=
  if pd_isna text then .str ""
  else .str (String.mk
    (stripSpaces (squeezeSpaces ((unescapeChars (pyStr text).toList).map wsToSpace))))

/-- `extract_primary_incident_type`: first element of a non-empty list,
`None` otherwise. -/
def extract_primary_incident_type (types_list : PyVal) : PyVal :=
  match types_list with
  | .list (x :: _) => x
  | _ => .none

/-- Lookup in a parsed dict (`d.get(k)` / `d[k]`); Python dict literals are
last-key-wins. -/
def dictGet (kvs : List (PyVal × PyVal)) (k : PyVal) : Option PyVal :=
  (kvs.reverse.find? (fun p => p.1 == k)).map (fun p => p.2)

/-- `extract_genders_from_subjects`: collect each subject's `gender`. -/
def extract_genders_from_subjects (subjects : PyVal) : PyVal :=
  match subjects with
  | .list xs =>
    .list (xs.filterMap (fun s =>
      match s with
      | .dict kvs => dictGet kvs (.str "gender")
      | _ => Option.none))
  | _ => .list []

/-- `count_gender`: tally of truthy elements whose lowercase `str()` text
contains the lowercase target as a substring. -/
def count_gender (gender_list : PyVal) (target_gender : String) : Nat :=
  match gender_list with
  | .list xs =>
    (xs.filter (fun g =>
      pyTruthy g && substrIn (lowerStr target_gender) (lowerStr (pyStr g)))).length
  | _ => 0

/-- `parse_subjects_column`: same decode rule as `parse_list_column`. -/
def parse_subjects_column (value : PyVal) : PyVal :=
  if pd_isna value then .list []
  else match value with
    | .list xs => .list xs
    | .str s =>
      match literal_eval s with
      | some v => v
      | Option.none => .list []
    | _ => .list []

/-! ## Dates

`pd.to_datetime(..., errors='coerce')` modelled for the value shapes in this
dataset: ISO `YYYY-MM-DD` text parses to a calendar-validated date, an
existing datetime passes through, and everything else (missing values,
unparseable text, non-text scalars) coerces to `NaT` (`PyVal.none`). -/

def splitDashAux : List Char → List Char → List (List Char)
  | acc, [] => [acc.reverse]
  | acc, '-' :: rest => acc.reverse :: splitDashAux [] rest
  | acc, c :: rest => splitDashAux (c :: acc) rest

def allDigits (cs : List Char) : Bool := !cs.isEmpty && cs.all Char.isDigit

def natOfDigits (cs : List Char) : Nat := cs.foldl (fun a c => a * 10 + (c.toNat - 48)) 0

def daysInMonth (y m : Nat) : Nat :=
  if m = 2 then (if (y % 4 = 0 && y % 100 != 0) || y % 400 = 0 then 29 else 28)
  else if m = 4 ∨ m = 6 ∨ m = 9 ∨ m = 11 then 30
  else 31

/-- Calendar validation: `pd.to_datetime` rejects out-of-range months/days. -/
def mkValidDate (y m d : Nat) : Option SimpleDate :=
  if 1 ≤ m ∧ m ≤ 12 ∧ 1 ≤ d ∧ d ≤ daysInMonth y m then some ⟨y, m, d⟩ else Option.none

def parseISODate (s : String) : Option SimpleDate :=
  match splitDashAux [] s.toList with
  | [ys, ms, ds] =>
    if allDigits ys && allDigits ms && allDigits ds && ys.length == 4 &&
        ms.length ≤ 2 && ds.length ≤ 2 then
      mkValidDate (natOfDigits ys) (natOfDigits ms) (natOfDigits ds)
    else Option.none
  | _ => Option.none

def to_datetime (v : PyVal) : PyVal :=
  match v with
  | .date d => .date d
  | .str s =>
    match parseISODate s with
    | some d => .date d
    | Option.none => .none
  | _ => .none

def dayNames : List String :=
  ["Sunday", "Monday", "Tuesday", "Wednesday", "Thursday", "Friday", "Saturday"]

def sakamotoT : List Nat := [0, 3, 2, 5, 0, 3, 5, 1, 4, 6, 2, 4]

/-- Day-of-week index (0 = Sunday), Sakamoto's method for the Gregorian
calendar. -/
def dayOfWeekIdx (dt : SimpleDate) : Nat :=
  let y := if dt.month < 3 then dt.year - 1 else dt.year
  (y + y / 4 - y / 100 + y / 400 + sakamotoT.getD (dt.month - 1) 0 + dt.day) % 7

/-- `Series.dt.day_name()`: the full weekday name. -/
def day_name (dt : SimpleDate) : String := dayNames.getD (dayOfWeekIdx dt) "Monday"

/-! ## Dataframes

A dataframe is a list of column names plus one association list per row;
`Row.get` of an absent column is the missing value, mirroring how a cell
that was never assigned reads back as `NaN`.  Unconditional pandas column
accesses (`df['country']`, `drop_duplicates(subset=['id'])`,
`sort_values('date')`) raise `KeyError` when the column is absent, and
`apply(len)` raises `TypeError` on an unsized value; both become `PyErr`. -/

abbrev Row := List (String × PyVal)

def Row.get (r : Row) (c : String) : PyVal :=
  match r with
  | [] => .none
  | (k, v) :: rest => if k = c then v else Row.get rest c

def Row.set : Row → String → PyVal → Row
  | [], c, v => [(c, v)]
  | (k, w) :: rest, c, v => if k = c then (c, v) :: rest else (k, w) :: Row.set rest c v

inductive PyErr where
  | keyError (c : String)
  | typeError (m : String)
deriving DecidableEq, Repr

structure Table where
  cols : List String
  rows : List Row
deriving DecidableEq, Repr

/-- `df[c] = df[c].apply(f)` for an existing column `c`. -/
def Table.applyCol (t : Table) (c : String) (f : PyVal → PyVal) : Table :=
  ⟨t.cols, t.rows.map (fun r => Row.set r c (f (Row.get r c)))⟩

/-- `df[c] = df[src].apply(f)`: a derived column. -/
def Table.addCol (t : Table) (c src : String) (f : PyVal → PyVal) : Table :=
  ⟨if c ∈ t.cols then t.cols else t.cols ++ [c],
   t.rows.map (fun r => Row.set r c (f (Row.get r src)))⟩

def mapME (f : α → Except PyErr β) : List α → Except PyErr (List β)
  | [] => .ok []
  | a :: as =>
    match f a with
    | .error e => .error e
    | .ok b =>
      match mapME f as with
      | .error e => .error e
      | .ok bs => .ok (b :: bs)

/-- `df[c] = df[src].apply(f)` where `f` may raise. -/
def Table.addColE (t : Table) (c src : String) (f : PyVal → Except PyErr PyVal) :
    Except PyErr Table :=
  (mapME (fun r => (f (Row.get r src)).map (fun v => Row.set r c v)) t.rows).map
    (fun rs => ⟨if c ∈ t.cols then t.cols else t.cols ++ [c], rs⟩)

/-- `df[c] = df[c].fillna(d)`: raises `KeyError` when `c` is absent. -/
def Table.fillna (t : Table) (c : String) (d : PyVal) : Except PyErr Table :=
  if c ∈ t.cols then .ok (t.applyCol c (fun v => if pd_isna v then d else v))
  else .error (.keyError c)

/-- Python `len()` of a cell value. -/
def pyLenE : PyVal → Except PyErr Nat
  | .list xs => .ok xs.length
  | .str s => .ok s.length
  | .dict kvs => .ok kvs.length
  | .none => .error (.typeError "object of type NoneType has no len")
  | .bool _ => .error (.typeError "object of type bool has no len")
  | .int _ => .error (.typeError "object of type int has no len")
  | .date _ => .error (.typeError "object of type Timestamp has no len")

/-! ## `clean_mapmf_data`: the pipeline -/

def list_columns : List String :=
  ["type_of_incident", "source_of_incident", "context_of_incident", "region_names",
   "gender", "who_was_attacked", "type_of_journalist_or_media_actor", "employment_status"]

def text_columns : List String := ["title", "content"]

/-- Step 1: parse list columns. -/
def parse_list_step (t : Table) : Table :=
  list_columns.foldl (fun d c => if c ∈ d.cols then d.applyCol c parse_list_column else d) t

def parse_subjects_step (t : Table) : Table :=
  if "subjects" ∈ t.cols then t.applyCol "subjects" parse_subjects_column else t

/-- Step 2: clean text columns. -/
def clean_text_step (t : Table) : Table :=
  text_columns.foldl (fun d c => if c ∈ d.cols then d.applyCol c clean_text else d) t

/-- Step 3 (first part): `primary_incident_type` and the unguarded
`df['type_of_incident'].apply(len)`. -/
def incident_type_step (t : Table) : Except PyErr Table :=
  if "type_of_incident" ∈ t.cols then
    (t.addCol "primary_incident_type" "type_of_incident" extract_primary_incident_type).addColE
      "incident_type_count" "type_of_incident" (fun v => (pyLenE v).map (fun n => .int n))
  else .ok t

def primary_source_step (t : Table) : Table :=
  if "source_of_incident" ∈ t.cols then
    t.addCol "primary_source" "source_of_incident" extract_primary_incident_type
  else t

/-- `lambda x: x[1] if isinstance(x, list) and len(x) > 1 else None`. -/
def region_level_1_of (x : PyVal) : PyVal :=
  match x with
  | .list xs => if xs.length > 1 then xs.getD 1 .none else .none
  | _ => .none

/-- `lambda x: x[2] if isinstance(x, list) and len(x) > 2 else None`. -/
def region_level_2_of (x : PyVal) : PyVal :=
  match x with
  | .list xs => if xs.length > 2 then xs.getD 2 .none else .none
  | _ => .none

def region_step (t : Table) : Table :=
  if "region_names" ∈ t.cols then
    (t.addCol "region_level_1" "region_names" region_level_1_of).addCol
      "region_level_2" "region_names" region_level_2_of
  else t

/-- The `gender_other_count` lambda: non-empty strings not equal (after
lowering) to man/woman/not applicable. -/
def gender_other_count_of (x : PyVal) : PyVal :=
  match x with
  | .list xs =>
    .int ((xs.filter (fun g =>
      match g with
      | .str s => !(["man", "woman", "not applicable", ""].contains (lowerStr s))
      | _ => false)).length : Nat)
  | _ => .int 0

def gender_step (t : Table) : Table :=
  if "gender" ∈ t.cols then
    (((t.addCol "primary_gender" "gender" extract_primary_incident_type).addCol
        "gender_male_count" "gender" (fun x => .int (count_gender x "man"))).addCol
        "gender_female_count" "gender" (fun x => .int (count_gender x "woman"))).addCol
      "gender_other_count" "gender" gender_other_count_of
  else t

def subjects_count_of (x : PyVal) : PyVal :=
  match x with
  | .list xs => .int (xs.length : Nat)
  | _ => .int 0

/-- The `journalist_types` lambda: `type` of each dict subject whose `kind`
is `"journalist"`. -/
def journalist_types_of (subjects : PyVal) : PyVal :=
  match subjects with
  | .list ss =>
    .list (ss.filterMap (fun s =>
      match s with
      | .dict kvs =>
        if dictGet kvs (.str "kind") == some (.str "journalist") then
          some ((dictGet kvs (.str "type")).getD (.str ""))
        else Option.none
      | _ => Option.none))
  | _ => .list []

def subjects_derived_step (t : Table) : Table :=
  if "subjects" ∈ t.cols then
    (t.addCol "subjects_count" "subjects" subjects_count_of).addCol
      "journalist_types" "subjects" journalist_types_of
  else t

def victim_step (t : Table) : Table :=
  if "who_was_attacked" ∈ t.cols then
    t.addCol "primary_victim_type" "who_was_attacked" extract_primary_incident_type
  else t

/-- `Series.dt.month`: `NaN` for `NaT`. -/
def month_of (v : PyVal) : PyVal :=
  match v with
  | .date d => .int (d.month : Nat)
  | _ => .none

/-- `Series.dt.day_name()`: `NaN` for `NaT`. -/
def day_of_week_of (v : PyVal) : PyVal :=
  match v with
  | .date d => .str (day_name d)
  | _ => .none

/-- Step 4: coerce `date`, derive `month` and `day_of_week`. -/
def date_step (t : Table) : Table :=
  if "date" ∈ t.cols then
    ((t.applyCol "date" to_datetime).addCol "month" "date" month_of).addCol
      "day_of_week" "date" day_of_week_of
  else t

def content_length_of (v : PyVal) : PyVal :=
  match v with
  | .str s => .int (s.length : Nat)
  | _ => .none

/-- Step 5: `df['content'].str.len()`. -/
def content_length_step (t : Table) : Table :=
  if "content" ∈ t.cols then t.addCol "content_length" "content" content_length_of else t

/-- Step 6: the three unconditional `fillna` assignments. -/
def fillna_step (t : Table) : Except PyErr Table :=
  match t.fillna "country" (.str "Unknown") with
  | .error e => .error e
  | .ok t1 =>
    match t1.fillna "title" (.str "") with
    | .error e => .error e
    | .ok t2 => t2.fillna "content" (.str "")

def jsonEscChar (c : Char) : String :=
  if c == '"' then "\\\"" else if c == '\\' then "\\\\" else String.singleton c

def jsonStrLit (s : String) : String :=
  "\"" ++ String.join (s.toList.map jsonEscChar) ++ "\""

mutual

/-- `json.dumps` over the value shapes occurring in `subjects`. -/
def jsonOf : PyVal → String
  | .none => "null"
  | .bool true => "true"
  | .bool false => "false"
  | .int n => toString n
  | .str s => jsonStrLit s
  | .date d => jsonStrLit (dateStr d)
  | .list xs => "[" ++ jsonOfList xs ++ "]"
  | .dict kvs =>
    String.singleton lbraceChar ++ jsonOfEntries kvs ++ String.singleton rbraceChar

def jsonOfList : List PyVal → String
  | [] => ""
  | [x] => jsonOf x
  | x :: y :: rest => jsonOf x ++ ", " ++ jsonOfList (y :: rest)

def jsonOfEntries : List (PyVal × PyVal) → String
  | [] => ""
  | [(k, v)] => jsonStrLit (pyStr k) ++ ": " ++ jsonOf v
  | (k, v) :: e :: rest =>
    jsonStrLit (pyStr k) ++ ": " ++ jsonOf v ++ ", " ++ jsonOfEntries (e :: rest)

end

def json_dumps_subjects (v : PyVal) : PyVal :=
  match v with
  | .list xs => .str (jsonOf (.list xs))
  | v => v

/-- Step 7: re-encode list columns (and `journalist_types`, `subjects`). -/
def reencode_step (t : Table) : Table :=
  let t := list_columns.foldl
    (fun d c => if c ∈ d.cols then d.applyCol c list_to_pipe_separated else d) t
  let t :=
    if "journalist_types" ∈ t.cols then t.applyCol "journalist_types" list_to_pipe_separated
    else t
  if "subjects" ∈ t.cols then t.applyCol "subjects" json_dumps_subjects else t

def preferred_order : List String :=
  ["id", "title", "date", "year", "month", "day_of_week",
   "country", "region_level_1", "region_level_2",
   "primary_incident_type", "incident_type_count", "type_of_incident",
   "primary_source", "source_of_incident",
   "context_of_incident", "region_names",
   "primary_gender", "gender_male_count", "gender_female_count", "gender_other_count",
   "gender",
   "primary_victim_type", "who_was_attacked", "attacked_count",
   "type_of_journalist_or_media_actor", "employment_status",
   "subjects_count", "journalist_types", "subjects",
   "content", "content_length",
   "published_at_date", "_geo_lat", "_geo_lng"]

/-- Step 8: column reordering (`df = df[final_columns]`). -/
def reorder_step (t : Table) : Table :=
  let finalCols := preferred_order.filter (fun c => t.cols.contains c)
  let remaining := t.cols.filter (fun c => !finalCols.contains c)
  ⟨finalCols ++ remaining, t.rows⟩

/-- Step 9: `drop_duplicates(subset=['id'], keep='first')`, scanning rows in
order and dropping those whose `id` was already seen. -/
def drop_duplicates : List Row → List PyVal → List Row
  | [], _ => []
  | r :: rs, seen =>
    if Row.get r "id" ∈ seen then drop_duplicates rs seen
    else r :: drop_duplicates rs (Row.get r "id" :: seen)

def dedup_step (t : Table) : Except PyErr (Table × Nat) :=
  if "id" ∈ t.cols then
    let rs := drop_duplicates t.rows []
    .ok (⟨t.cols, rs⟩, t.rows.length - rs.length)
  else .error (.keyError "id")

/-- Lexicographic order on dates. -/
def SimpleDate.le (a b : SimpleDate) : Prop :=
  a.year < b.year ∨
    (a.year = b.year ∧ (a.month < b.month ∨ (a.month = b.month ∧ a.day ≤ b.day)))

instance : DecidableRel SimpleDate.le := fun a b => by
  unfold SimpleDate.le; exact inferInstance

def dateOf (r : Row) : Option SimpleDate :=
  match Row.get r "date" with
  | .date d => some d
  | _ => Option.none

/-- Descending-by-date comparison between rows; a missing date sorts after
everything. -/
def dateGeB (a b : Row) : Bool :=
  match dateOf a, dateOf b with
  | _, Option.none => true
  | Option.none, some _ => false
  | some da, some db => decide (SimpleDate.le db da)

def dateGe (a b : Row) : Prop := dateGeB a b = true

instance : DecidableRel dateGe := fun a b =>
  inferInstanceAs (Decidable (dateGeB a b = true))

/-- Step 10: `sort_values('date', ascending=False)`.  As in pandas
`nargsort`, rows with a valid date are sorted on the key and rows with
`NaT` are appended afterwards in their pre-sort order
(`na_position='last'`). -/
def sort_values_date (rows : List Row) : List Row :=
  List.insertionSort dateGe (rows.filter (fun r => (dateOf r).isSome)) ++
    rows.filter (fun r => !(dateOf r).isSome)

def sort_step (t : Table) : Except PyErr Table :=
  if "date" ∈ t.cols then .ok ⟨t.cols, sort_values_date t.rows⟩
  else .error (.keyError "date")

/-- Steps 1-3a in source order: list parsing, subjects parsing, text
cleaning. -/
def steps_1_2 (df : Table) : Table := clean_text_step (parse_subjects_step (parse_list_step df))

/-- Steps 3b-5 in source order: the remaining derived columns, date
decomposition, content length. -/
def steps_3b_5 (t : Table) : Table :=
  content_length_step (date_step (victim_step (subjects_derived_step (gender_step
    (region_step (primary_source_step t))))))

/-- Steps 7-8 in source order: re-encoding and column reordering. -/
def steps_7_8 (t : Table) : Table := reorder_step (reencode_step t)

/-- Steps 1-8 of `clean_mapmf_data`: everything before deduplication. -/
def transform_cols (df : Table) : Except PyErr Table :=
  match incident_type_step (steps_1_2 df) with
  | .error e => .error e
  | .ok t1 =>
    match fillna_step (steps_3b_5 t1) with
    | .error e => .error e
    | .ok t2 => .ok (steps_7_8 t2)

def clean_upto_dedup (df : Table) : Except PyErr (Table × Nat) :=
  match transform_cols df with
  | .error e => .error e
  | .ok t => dedup_step t

/-- `clean_mapmf_data`, from the loaded input table to the table written to
the output CSV together with the reported duplicate count. -/
def clean_mapmf_data (df : Table) : Except PyErr (Table × Nat) :=
  match clean_upto_dedup df with
  | .error e => .error e
  | .ok (t, dups) =>
    match sort_step t with
    | .error e => .error e
    | .ok s => .ok (s, dups)

def idsOf (rows : List Row) : List PyVal := rows.map (fun r => Row.get r "id")

/-! ## `mapmf_scraper.py`: the accumulation loop of `scrape_all_alerts`

`fetch_alerts` is the external HTTP call; it is modelled as an oracle from
an offset to either a page (`hits` plus `estimatedTotalHits`, the latter
read with `.get(..., 0)` default) or `Option.none`, which covers both a
request failure and a response without a `'hits'` key — the loop treats the
two identically. -/

structure PageResult (α : Type) where
  hits : List α
  estimatedTotalHits : Nat

inductive StopReason where
  | targetReached
  | fetchFailed
  | emptyPage
  | reachedEnd
deriving DecidableEq, Repr

/-- The `while len(all_alerts) < target_count` loop body; returns the
accumulated alerts, the offset of the last fetch attempt, and why the loop
stopped.  Totality (the loop always terminates) is established by the
decreasing measure `target - len(acc)`: every continuing iteration appends
a non-empty page. -/
def scrape_loop (fetch : Nat → Option (PageResult α)) (target : Nat) (acc : List α)
    (offset batch : Nat) : List α × Nat × StopReason :=
  if h : acc.length < target then
    match fetch offset with
    | Option.none => (acc, offset, .fetchFailed)
    | some page =>
      if hne : page.hits.isEmpty then (acc, offset, .emptyPage)
      else
        if page.estimatedTotalHits ≤ offset + batch then
          (acc ++ page.hits, offset, .reachedEnd)
        else scrape_loop fetch target (acc ++ page.hits) (offset + batch) batch
  else (acc, offset, .targetReached)
termination_by target - acc.length
decreasing_by
  have hlen : 0 < page.hits.length := by
    cases hh : page.hits with
    | nil => rw [hh] at hne; simp at hne
    | cons a l => simp
  simp
  omega

/-- `scrape_all_alerts`: accumulate from offset 0 in pages of
`batch_size = 1000`. -/
def scrape_all_alerts (fetch : Nat → Option (PageResult α)) (target_count : Nat) :
    List α × Nat × StopReason :=
  scrape_loop fetch target_count [] 0 1000

/-- The four documented stop conditions, each tied to the reason the loop
reports: target reached, fetch failure, empty page, or
`offset + limit >= estimated_total_hits`. -/
def stopSound (fetch : Nat → Option (PageResult α)) (target batch : Nat)
    (out : List α × Nat × StopReason) : Prop :=
  match out.2.2 with
  | .targetReached => target ≤ out.1.length
  | .fetchFailed => fetch out.2.1 = Option.none ∧ out.1.length < target
  | .emptyPage =>
    (∃ page, fetch out.2.1 = some page ∧ page.hits = []) ∧ out.1.length < target
  | .reachedEnd =>
    ∃ page, fetch out.2.1 = some page ∧ page.hits ≠ [] ∧
      page.estimatedTotalHits ≤ out.2.1 + batch

theorem scrape_loop_stop_sound (fetch : Nat → Option (PageResult α)) (target batch offset : Nat)
    (acc : List α) : stopSound fetch target batch (scrape_loop fetch target acc offset batch) := by
  induction acc, offset, batch using scrape_loop.induct fetch target with
  | case1 acc offset batch h1 h2 =>
    rw [scrape_loop]
    simp [h1, h2, stopSound]
  | case2 acc offset batch h1 page h2 hne =>
    rw [scrape_loop]
    simp [h1, h2, hne, stopSound]
    exact List.isEmpty_iff.mp hne
  | case3 acc offset batch h1 page h2 hne hend =>
    rw [scrape_loop]
    simp [h1, h2, hne, hend, stopSound]
    exact fun hc => hne (by simp [hc])
  | case4 acc offset batch h1 page h2 hne hend ih =>
    rw [scrape_loop]
    simp [h1, h2, hne, hend]
    exact ih
  | case5 acc offset batch h1 =>
    rw [scrape_loop]
    simp [h1, stopSound]
    omega

/-! ## Concrete scenario tables

Cells are as `pd.read_csv` delivers them: text or missing.  Every table
carries the five columns the pipeline accesses unconditionally
(`id`, `title`, `content`, `country`, `date`). -/

def cellAt (t : Table) (i : Nat) (c : String) : PyVal := Row.get (t.rows.getD i []) c

/-- Two rows sharing `id="42"` with different titles. -/
def c1_input : Table :=
  ⟨["id", "title", "content", "country", "date"],
   [[("id", .str "42"), ("title", .str "First Title"), ("content", .str "c"),
     ("country", .str "X"), ("date", .str "2024-01-01")],
    [("id", .str "42"), ("title", .str "Second Title"), ("content", .str "c"),
     ("country", .str "X"), ("date", .str "2024-01-02")]]⟩

/-- The cleaned table for `c1_input`: one surviving row carrying the first
row's values. -/
def c1_expected : Table :=
  ⟨["id", "title", "date", "month", "day_of_week", "country", "content", "content_length"],
   [[("id", .str "42"), ("title", .str "First Title"), ("content", .str "c"),
     ("country", .str "X"), ("date", .date ⟨2024, 1, 1⟩), ("month", .int 1),
     ("day_of_week", .str "Monday"), ("content_length", .int 1)]]⟩

/-- One row whose `gender` cell is the serialized list
`['Man', 'Woman', 'Man']`. -/
def c2_input : Table :=
  ⟨["id", "title", "content", "country", "date", "gender"],
   [[("id", .str "1"), ("title", .str "t"), ("content", .str "c"),
     ("country", .str "X"), ("date", .str "2024-01-01"),
     ("gender", .str "['Man', 'Woman', 'Man']")]]⟩

/-- One row whose `type_of_incident` cell is the text `42`, which
`ast.literal_eval` turns into the integer `42`. -/
def c5_input : Table :=
  ⟨["id", "title", "content", "country", "date", "type_of_incident"],
   [[("id", .str "1"), ("title", .str "t"), ("content", .str "c"),
     ("country", .str "X"), ("date", .str "2024-01-01"),
     ("type_of_incident", .str "42")]]⟩

/-- One row with an unparseable (empty) `date`. -/
def c6_input : Table :=
  ⟨["id", "title", "content", "country", "date"],
   [[("id", .str "1"), ("title", .str "t"), ("content", .str "c"),
     ("country", .str "X"), ("date", .str "")]]⟩

def c6_tbl : Table := ⟨["date"], [[("date", PyVal.none)]]⟩

def c6_row : Row := [("date", PyVal.none), ("month", PyVal.none), ("day_of_week", PyVal.none)]

/-- Three distinct-id rows with dates 2024-01-01, 2023-06-15, 2024-06-01. -/
def c7_input : Table :=
  ⟨["id", "title", "content", "country", "date"],
   [[("id", .str "1"), ("title", .str "a"), ("content", .str "c"),
     ("country", .str "X"), ("date", .str "2024-01-01")],
    [("id", .str "2"), ("title", .str "b"), ("content", .str "c"),
     ("country", .str "X"), ("date", .str "2023-06-15")],
    [("id", .str "3"), ("title", .str "c"), ("content", .str "c"),
     ("country", .str "X"), ("date", .str "2024-06-01")]]⟩

/-- One row whose `region_names` cell is the serialized list
`['CityX', 'CountryY', 'RegionZ']`. -/
def c9_input : Table :=
  ⟨["id", "title", "content", "country", "date", "region_names"],
   [[("id", .str "1"), ("title", .str "t"), ("content", .str "c"),
     ("country", .str "X"), ("date", .str "2024-01-01"),
     ("region_names", .str "['CityX', 'CountryY', 'RegionZ']")]]⟩

/-- Rows with unparseable, parseable and unparseable dates, in that order. -/
def c10_input : Table :=
  ⟨["id", "title", "content", "country", "date"],
   [[("id", .str "1"), ("title", .str "a"), ("content", .str "c"),
     ("country", .str "X"), ("date", .str "")],
    [("id", .str "2"), ("title", .str "b"), ("content", .str "c"),
     ("country", .str "X"), ("date", .str "2024-01-01")],
    [("id", .str "3"), ("title", .str "c"), ("content", .str "c"),
     ("country", .str "X"), ("date", .str "notadate")]]⟩

/-- The cleaned table for `c2_input` (also the first-run output for the
idempotence scenario). -/
def c3_out : Table :=
  ⟨["id", "title", "date", "month", "day_of_week", "country", "primary_gender",
    "gender_male_count", "gender_female_count", "gender_other_count", "gender",
    "content", "content_length"],
   [[("id", .str "1"), ("title", .str "t"), ("content", .str "c"),
     ("country", .str "X"), ("date", .date ⟨2024, 1, 1⟩),
     ("gender", .str "Man | Woman | Man"), ("primary_gender", .str "Man"),
     ("gender_male_count", .int 3), ("gender_female_count", .int 1),
     ("gender_other_count", .int 0), ("month", .int 1),
     ("day_of_week", .str "Monday"), ("content_length", .int 1)]]⟩

/-- The second-run output: the pipe-joined `gender` text fails to re-parse
and degrades to the empty sequence, but the row and its id survive. -/
def c3_out2 : Table :=
  ⟨["id", "title", "date", "month", "day_of_week", "country", "primary_gender",
    "gender_male_count", "gender_female_count", "gender_other_count", "gender",
    "content", "content_length"],
   [[("id", .str "1"), ("title", .str "t"), ("content", .str "c"),
     ("country", .str "X"), ("date", .date ⟨2024, 1, 1⟩),
     ("gender", .str ""), ("primary_gender", PyVal.none),
     ("gender_male_count", .int 0), ("gender_female_count", .int 0),
     ("gender_other_count", .int 0), ("month", .int 1),
     ("day_of_week", .str "Monday"), ("content_length", .int 1)]]⟩

/-- The cleaned table for `c7_input`: dates descending. -/
def c7_out : Table :=
  ⟨["id", "title", "date", "month", "day_of_week", "country", "content", "content_length"],
   [[("id", .str "3"), ("title", .str "c"), ("content", .str "c"),
     ("country", .str "X"), ("date", .date ⟨2024, 6, 1⟩), ("month", .int 6),
     ("day_of_week", .str "Saturday"), ("content_length", .int 1)],
    [("id", .str "1"), ("title", .str "a"), ("content", .str "c"),
     ("country", .str "X"), ("date", .date ⟨2024, 1, 1⟩), ("month", .int 1),
     ("day_of_week", .str "Monday"), ("content_length", .int 1)],
    [("id", .str "2"), ("title", .str "b"), ("content", .str "c"),
     ("country", .str "X"), ("date", .date ⟨2023, 6, 15⟩), ("month", .int 6),
     ("day_of_week", .str "Thursday"), ("content_length", .int 1)]]⟩

/-- The cleaned table for `c10_input`: the dated row first, then the two
null-date rows in their original relative order. -/
def c10_out : Table :=
  ⟨["id", "title", "date", "month", "day_of_week", "country", "content", "content_length"],
   [[("id", .str "2"), ("title", .str "b"), ("content", .str "c"),
     ("country", .str "X"), ("date", .date ⟨2024, 1, 1⟩), ("month", .int 1),
     ("day_of_week", .str "Monday"), ("content_length", .int 1)],
    [("id", .str "1"), ("title", .str "a"), ("content", .str "c"),
     ("country", .str "X"), ("date", PyVal.none), ("month", PyVal.none),
     ("day_of_week", PyVal.none), ("content_length", .int 1)],
    [("id", .str "3"), ("title", .str "c"), ("content", .str "c"),
     ("country", .str "X"), ("date", PyVal.none), ("month", PyVal.none),
     ("day_of_week", PyVal.none), ("content_length", .int 1)]]⟩

/-! ## Row lemmas -/

theorem row_get_set_eq (r : Row) (c : String) (v : PyVal) :
    Row.get (Row.set r c v) c = v := by
  induction r with
  | nil => simp [Row.set, Row.get]
  | cons p rest ih =>
    obtain ⟨k, w⟩ := p
    by_cases h : k = c
    · simp [Row.set, h, Row.get]
    · simp [Row.set, h, Row.get, ih]

theorem row_get_set_ne (r : Row) (c c' : String) (v : PyVal) (h : c ≠ c') :
    Row.get (Row.set r c v) c' = Row.get r c' := by
  induction r with
  | nil => simp [Row.set, Row.get, h]
  | cons p rest ih =>
    obtain ⟨k, w⟩ := p
    by_cases hk : k = c
    · subst hk
      simp [Row.set, Row.get, h]
    · simp only [Row.set, if_neg hk, Row.get, ih]

/-! ## Preservation of the `id` column through the column transforms -/

theorem idsOf_map_set (rows : List Row) (c : String) (g : Row → PyVal) (h : c ≠ "id") :
    idsOf (rows.map (fun r => Row.set r c (g r))) = idsOf rows := by
  unfold idsOf
  rw [List.map_map]
  apply List.map_congr_left
  intro r _
  exact row_get_set_ne r c "id" (g r) h

theorem idsOf_applyCol (t : Table) (c : String) (f : PyVal → PyVal) (h : c ≠ "id") :
    idsOf (t.applyCol c f).rows = idsOf t.rows :=
  idsOf_map_set t.rows c _ h

theorem idsOf_addCol (t : Table) (c src : String) (f : PyVal → PyVal) (h : c ≠ "id") :
    idsOf (t.addCol c src f).rows = idsOf t.rows :=
  idsOf_map_set t.rows c _ h

theorem mapME_ok_map {α β γ : Type} (f : α → Except PyErr β) (gb : β → γ) (ga : α → γ)
    (l : List α) (l' : List β) (hptw : ∀ a b, f a = .ok b → gb b = ga a)
    (h : mapME f l = .ok l') : l'.map gb = l.map ga := by
  induction l generalizing l' with
  | nil =>
    simp [mapME] at h
    subst h
    simp
  | cons a as ih =>
    unfold mapME at h
    cases hfa : f a with
    | error e =>
      rw [hfa] at h
      exact Except.noConfusion h
    | ok b =>
      rw [hfa] at h
      cases hrec : mapME f as with
      | error e =>
        rw [hrec] at h
        exact Except.noConfusion h
      | ok bs =>
        rw [hrec] at h
        have hbs : b :: bs = l' := by injection h
        subst hbs
        simp [hptw a b hfa, ih bs hrec]

theorem idsOf_addColE (t : Table) (c src : String) (f : PyVal → Except PyErr PyVal)
    (t' : Table) (h : c ≠ "id") (hok : t.addColE c src f = .ok t') :
    idsOf t'.rows = idsOf t.rows := by
  unfold Table.addColE at hok
  cases hm : mapME (fun r => (f (Row.get r src)).map (fun v => Row.set r c v)) t.rows with
  | error e =>
    rw [hm] at hok
    exact Except.noConfusion hok
  | ok rs =>
    rw [hm] at hok
    have hok2 : (⟨if c ∈ t.cols then t.cols else t.cols ++ [c], rs⟩ : Table) = t' := by
      injection hok
    subst hok2
    show idsOf rs = idsOf t.rows
    unfold idsOf
    apply mapME_ok_map _ _ _ _ _ _ hm
    intro r b hb
    cases hf : f (Row.get r src) with
    | error e =>
      rw [hf] at hb
      exact Except.noConfusion hb
    | ok v =>
      rw [hf] at hb
      have hb2 : Row.set r c v = b := by injection hb
      subst hb2
      exact row_get_set_ne r c "id" v h

theorem idsOf_fillna (t : Table) (c : String) (d : PyVal) (t' : Table) (h : c ≠ "id")
    (hok : t.fillna c d = .ok t') : idsOf t'.rows = idsOf t.rows := by
  unfold Table.fillna at hok
  split at hok
  · simp at hok
    subst hok
    exact idsOf_applyCol t c _ h
  · simp at hok

theorem idsOf_foldl_applyCol (cs : List String) (F : PyVal → PyVal) (t : Table)
    (h : "id" ∉ cs) :
    idsOf ((cs.foldl (fun d c => if c ∈ d.cols then d.applyCol c F else d) t).rows) =
      idsOf t.rows := by
  induction cs generalizing t with
  | nil => rfl
  | cons c rest ih =>
    have hne : c ≠ "id" := fun hc => h (by simp [hc])
    have hrest : "id" ∉ rest := fun hc => h (by simp [hc])
    rw [List.foldl_cons, ih _ hrest]
    by_cases hc : c ∈ t.cols
    · simp [hc, idsOf_applyCol t c F hne]
    · simp [hc]

theorem ids_parse_list_step (t : Table) : idsOf (parse_list_step t).rows = idsOf t.rows :=
  idsOf_foldl_applyCol list_columns _ t (by decide)

theorem ids_parse_subjects_step (t : Table) :
    idsOf (parse_subjects_step t).rows = idsOf t.rows := by
  unfold parse_subjects_step
  split
  · exact idsOf_applyCol t _ _ (by decide)
  · rfl

theorem ids_clean_text_step (t : Table) : idsOf (clean_text_step t).rows = idsOf t.rows :=
  idsOf_foldl_applyCol text_columns _ t (by decide)

theorem ids_steps_1_2 (t : Table) : idsOf (steps_1_2 t).rows = idsOf t.rows := by
  unfold steps_1_2
  rw [ids_clean_text_step, ids_parse_subjects_step, ids_parse_list_step]

theorem ids_incident_type_step (t t' : Table) (hok : incident_type_step t = .ok t') :
    idsOf t'.rows = idsOf t.rows := by
  unfold incident_type_step at hok
  split at hok
  · rw [idsOf_addColE _ _ _ _ t' (by decide) hok, idsOf_addCol _ _ _ _ (by decide)]
  · simp at hok
    subst hok
    rfl

theorem ids_primary_source_step (t : Table) :
    idsOf (primary_source_step t).rows = idsOf t.rows := by
  unfold primary_source_step
  split
  · exact idsOf_addCol t _ _ _ (by decide)
  · rfl

theorem ids_region_step (t : Table) : idsOf (region_step t).rows = idsOf t.rows := by
  unfold region_step
  split
  · rw [idsOf_addCol _ _ _ _ (by decide), idsOf_addCol _ _ _ _ (by decide)]
  · rfl

theorem ids_gender_step (t : Table) : idsOf (gender_step t).rows = idsOf t.rows := by
  unfold gender_step
  split
  · rw [idsOf_addCol _ _ _ _ (by decide), idsOf_addCol _ _ _ _ (by decide),
      idsOf_addCol _ _ _ _ (by decide), idsOf_addCol _ _ _ _ (by decide)]
  · rfl

theorem ids_subjects_derived_step (t : Table) :
    idsOf (subjects_derived_step t).rows = idsOf t.rows := by
  unfold subjects_derived_step
  split
  · rw [idsOf_addCol _ _ _ _ (by decide), idsOf_addCol _ _ _ _ (by decide)]
  · rfl

theorem ids_victim_step (t : Table) : idsOf (victim_step t).rows = idsOf t.rows := by
  unfold victim_step
  split
  · exact idsOf_addCol t _ _ _ (by decide)
  · rfl

theorem ids_date_step (t : Table) : idsOf (date_step t).rows = idsOf t.rows := by
  unfold date_step
  split
  · rw [idsOf_addCol _ _ _ _ (by decide), idsOf_addCol _ _ _ _ (by decide),
      idsOf_applyCol _ _ _ (by decide)]
  · rfl

theorem ids_content_length_step (t : Table) :
    idsOf (content_length_step t).rows = idsOf t.rows := by
  unfold content_length_step
  split
  · exact idsOf_addCol t _ _ _ (by decide)
  · rfl

theorem ids_steps_3b_5 (t : Table) : idsOf (steps_3b_5 t).rows = idsOf t.rows := by
  unfold steps_3b_5
  rw [ids_content_length_step, ids_date_step, ids_victim_step, ids_subjects_derived_step,
    ids_gender_step, ids_region_step, ids_primary_source_step]

theorem ids_fillna_step (t t' : Table) (hok : fillna_step t = .ok t') :
    idsOf t'.rows = idsOf t.rows := by
  unfold fillna_step at hok
  cases h1 : t.fillna "country" (.str "Unknown") with
  | error e =>
    rw [h1] at hok
    exact Except.noConfusion hok
  | ok t1 =>
    rw [h1] at hok
    have hokb : (match t1.fillna "title" (.str "") with
      | Except.error e => Except.error e
      | Except.ok t2 => t2.fillna "content" (.str "")) = Except.ok t' := hok
    cases h2 : t1.fillna "title" (.str "") with
    | error e =>
      rw [h2] at hokb
      exact Except.noConfusion hokb
    | ok t2 =>
      rw [h2] at hokb
      have hok2 : t2.fillna "content" (.str "") = .ok t' := hokb
      rw [idsOf_fillna _ _ _ _ (by decide) hok2, idsOf_fillna _ _ _ _ (by decide) h2,
        idsOf_fillna _ _ _ _ (by decide) h1]

theorem ids_reencode_step (t : Table) : idsOf (reencode_step t).rows = idsOf t.rows := by
  unfold reencode_step
  have h1 := idsOf_foldl_applyCol list_columns list_to_pipe_separated t (by decide)
  set t1 := list_columns.foldl
    (fun d c => if c ∈ d.cols then d.applyCol c list_to_pipe_separated else d) t with ht1
  by_cases hj : "journalist_types" ∈ t1.cols
  · simp only [hj, if_pos]
    by_cases hs : "subjects" ∈ (t1.applyCol "journalist_types" list_to_pipe_separated).cols
    · simp only [hs, if_pos]
      rw [idsOf_applyCol _ _ _ (by decide), idsOf_applyCol _ _ _ (by decide), h1]
    · simp only [hs, if_neg, ite_false]
      rw [idsOf_applyCol _ _ _ (by decide), h1]
  · simp only [hj, if_neg, ite_false]
    by_cases hs : "subjects" ∈ t1.cols
    · simp only [hs, if_pos]
      rw [idsOf_applyCol _ _ _ (by decide), h1]
    · simp only [hs, if_neg, ite_false]
      exact h1

theorem ids_reorder_step (t : Table) : idsOf (reorder_step t).rows = idsOf t.rows := rfl

theorem ids_steps_7_8 (t : Table) : idsOf (steps_7_8 t).rows = idsOf t.rows := by
  unfold steps_7_8
  rw [ids_reorder_step, ids_reencode_step]

/-- Steps 1-8 never touch the `id` column: the sequence of ids (hence also
the row count) reaching deduplication equals the input's. -/
theorem ids_transform_cols (df t : Table) (h : transform_cols df = .ok t) :
    idsOf t.rows = idsOf df.rows := by
  unfold transform_cols at h
  split at h
  · exact Except.noConfusion h
  · rename_i t1 h1
    split at h
    · exact Except.noConfusion h
    · rename_i t2 h2
      have h3 : steps_7_8 t2 = t := by injection h
      subst h3
      rw [ids_steps_7_8, ids_fillna_step _ _ h2, ids_steps_3b_5,
        ids_incident_type_step _ _ h1, ids_steps_1_2]

theorem length_eq_of_ids_eq {a b : List Row} (h : idsOf a = idsOf b) :
    a.length = b.length := by
  have := congrArg List.length h
  simpa [idsOf] using this

/-! ## Deduplication lemmas -/

theorem drop_duplicates_sublist (l : List Row) (seen : List PyVal) :
    (drop_duplicates l seen).Sublist l := by
  induction l generalizing seen with
  | nil => simp [drop_duplicates]
  | cons r rs ih =>
    unfold drop_duplicates
    split
    · exact (ih seen).cons r
    · exact (ih (Row.get r "id" :: seen)).cons₂ r

theorem drop_duplicates_length_le (l : List Row) (seen : List PyVal) :
    (drop_duplicates l seen).length ≤ l.length :=
  (drop_duplicates_sublist l seen).length_le

/-- The id multiset after dedup: ids already seen are gone, every other id
keeps exactly its first occurrence. -/
theorem idsOf_cons (r : Row) (rs : List Row) :
    idsOf (r :: rs) = Row.get r "id" :: idsOf rs := rfl

theorem count_idsOf_drop_duplicates (l : List Row) (seen : List PyVal) (v : PyVal) :
    (idsOf (drop_duplicates l seen)).count v =
      if v ∈ seen then 0 else min 1 ((idsOf l).count v) := by
  induction l generalizing seen with
  | nil => simp [drop_duplicates, idsOf]
  | cons r rs ih =>
    unfold drop_duplicates
    by_cases hmem : Row.get r "id" ∈ seen
    · rw [if_pos hmem, ih]
      by_cases hv : v ∈ seen
      · simp [hv]
      · have hvne : Row.get r "id" ≠ v := fun h => hv (h ▸ hmem)
        rw [if_neg hv, if_neg hv]
        have hcnt : (idsOf (r :: rs)).count v = (idsOf rs).count v := by
          simp [idsOf_cons, List.count_cons, hvne]
        rw [hcnt]
    · rw [if_neg hmem]
      have hrec := ih (Row.get r "id" :: seen)
      by_cases hveq : v = Row.get r "id"
      · have hvnotseen : v ∉ seen := fun hc => hmem (hveq ▸ hc)
        have hin : v ∈ Row.get r "id" :: seen := by
          rw [hveq]; exact List.mem_cons_self _ _
        rw [if_pos hin] at hrec
        rw [if_neg hvnotseen, idsOf_cons, List.count_cons, hrec]
        have hcnt : (idsOf (r :: rs)).count v = (idsOf rs).count v + 1 := by
          simp [idsOf_cons, List.count_cons, hveq]
        rw [hcnt]
        simp [hveq]
      · by_cases hv : v ∈ seen
        · have hin : v ∈ Row.get r "id" :: seen := List.mem_cons_of_mem _ hv
          rw [if_pos hin] at hrec
          rw [if_pos hv, idsOf_cons, List.count_cons, hrec]
          simp [Ne.symm hveq]
        · have hnin : v ∉ Row.get r "id" :: seen := by
            intro hc
            rcases List.mem_cons.mp hc with h | h
            · exact hveq h
            · exact hv h
          rw [if_neg hnin] at hrec
          rw [if_neg hv, idsOf_cons, List.count_cons, hrec]
          have hcnt : (idsOf (r :: rs)).count v = (idsOf rs).count v := by
            simp [idsOf_cons, List.count_cons, hveq]
          rw [hcnt]
          simp [Ne.symm hveq]

theorem nodup_ids_drop_duplicates (l : List Row) :
    (idsOf (drop_duplicates l [])).Nodup := by
  rw [List.nodup_iff_count_le_one]
  intro v
  rw [count_idsOf_drop_duplicates]
  simp

/-- When all ids are distinct (and none was pre-seen), dedup is the
identity. -/
theorem drop_duplicates_eq_self (l : List Row) (seen : List PyVal)
    (hnd : (idsOf l).Nodup) (hdisj : ∀ r ∈ l, Row.get r "id" ∉ seen) :
    drop_duplicates l seen = l := by
  induction l generalizing seen with
  | nil => rfl
  | cons r rs ih =>
    unfold drop_duplicates
    rw [if_neg (hdisj r (List.mem_cons_self r rs))]
    rw [idsOf_cons] at hnd
    have hnd2 : (idsOf rs).Nodup := (List.nodup_cons.mp hnd).2
    have hhead : Row.get r "id" ∉ idsOf rs := (List.nodup_cons.mp hnd).1
    congr 1
    apply ih
    · exact hnd2
    · intro r' hr' hc
      rcases List.mem_cons.mp hc with h | h
      · exact hhead (h ▸ List.mem_map_of_mem (fun r => Row.get r "id") hr')
      · exact hdisj r' (List.mem_cons_of_mem r hr') h

/-! ## Sort lemmas -/

theorem dateGe_total (a b : Row) : dateGe a b ∨ dateGe b a := by
  unfold dateGe dateGeB
  cases ha : dateOf a <;> cases hb : dateOf b <;> simp [SimpleDate.le] <;> omega

theorem dateGe_trans (a b c : Row) (hab : dateGe a b) (hbc : dateGe b c) : dateGe a c := by
  unfold dateGe dateGeB at hab hbc ⊢
  cases ha : dateOf a <;> cases hb : dateOf b <;> cases hc : dateOf c <;>
    rw [ha, hb] at hab <;> rw [hb, hc] at hbc <;> simp_all [SimpleDate.le] <;> omega

instance : IsTotal Row dateGe := ⟨dateGe_total⟩

instance : IsTrans Row dateGe := ⟨dateGe_trans⟩

theorem dateGe_of_none (a b : Row) (h : dateOf b = Option.none) : dateGe a b := by
  unfold dateGe dateGeB
  rw [h]
  cases dateOf a <;> simp

theorem sort_values_date_perm (rows : List Row) : List.Perm (sort_values_date rows) rows := by
  unfold sort_values_date
  exact ((List.perm_insertionSort dateGe _).append_right _).trans
    (List.filter_append_perm _ rows)

theorem pairwise_sort_values_date (rows : List Row) :
    (sort_values_date rows).Pairwise dateGe := by
  unfold sort_values_date
  rw [List.pairwise_append]
  refine ⟨List.sorted_insertionSort dateGe _, ?_, ?_⟩
  · apply List.pairwise_of_forall_mem_list
    intro a _ b hb
    exact dateGe_of_none a b (by
      have := (List.mem_filter.mp hb).2
      simpa using this)
  · intro a _ b hb
    exact dateGe_of_none a b (by
      have := (List.mem_filter.mp hb).2
      simpa using this)

/-- The sorted output is the sorted dated rows followed by the undated rows
in their pre-sort order. -/
theorem sort_values_date_split (rows : List Row) :
    ∃ pfx, sort_values_date rows = pfx ++ rows.filter (fun r => !(dateOf r).isSome) ∧
      ∀ r ∈ pfx, (dateOf r).isSome := by
  refine ⟨List.insertionSort dateGe (rows.filter (fun r => (dateOf r).isSome)), rfl, ?_⟩
  intro r hr
  have hmem : r ∈ rows.filter (fun r => (dateOf r).isSome) :=
    (List.perm_insertionSort dateGe _).mem_iff.mp hr
  exact (List.mem_filter.mp hmem).2

/-- Unfolding `clean_mapmf_data` into its three stages: the column
transforms, then `drop_duplicates` on `id`, then the date sort. -/
theorem clean_structure (df out : Table) (dups : Nat)
    (h : clean_mapmf_data df = .ok (out, dups)) :
    ∃ t1, transform_cols df = .ok t1 ∧
      out.rows = sort_values_date (drop_duplicates t1.rows []) ∧
      dups = t1.rows.length - (drop_duplicates t1.rows []).length := by
  unfold clean_mapmf_data at h
  split at h
  · exact Except.noConfusion h
  · rename_i t dups1 hcu
    unfold clean_upto_dedup at hcu
    split at hcu
    · exact Except.noConfusion hcu
    · rename_i t1 htr
      unfold dedup_step at hcu
      split at hcu
      · refine ⟨t1, htr, ?_⟩
        injection hcu with hp
        have hfst : (⟨t1.cols, drop_duplicates t1.rows []⟩ : Table) = t :=
          congrArg Prod.fst hp
        have hsnd : t1.rows.length - (drop_duplicates t1.rows []).length = dups1 :=
          congrArg Prod.snd hp
        unfold sort_step at h
        split at h
        · exact Except.noConfusion h
        · rename_i s heq2
          injection h with hp2
          have hout : s = out := congrArg Prod.fst hp2
          have hdups : dups1 = dups := congrArg Prod.snd hp2
          split at heq2
          · injection heq2 with hs
            constructor
            · rw [← hout, ← hs, ← hfst]
            · rw [← hdups]
              exact hsnd.symm
          · exact Except.noConfusion heq2
      · exact Except.noConfusion hcu




/-! ## Date-step characterization (for C6) -/

theorem parseISODate_month_bounds (s : String) (dt : SimpleDate)
    (h : parseISODate s = some dt) : 1 ≤ dt.month ∧ dt.month ≤ 12 := by
  unfold parseISODate at h
  split at h
  · split at h
    · unfold mkValidDate at h
      split at h
      · rename_i hcond
        injection h with hdt
        subst hdt
        exact ⟨hcond.1, hcond.2.1⟩
      · exact Option.noConfusion h
    · exact Option.noConfusion h
  · exact Option.noConfusion h

theorem day_name_mem_dayNames (dt : SimpleDate) : day_name dt ∈ dayNames := by
  have hall : ∀ k, k < 7 → dayNames.getD k "Monday" ∈ dayNames := by decide
  unfold day_name
  apply hall
  unfold dayOfWeekIdx
  exact Nat.mod_lt _ (by decide)

/-- Each row of the date step's output carries the coerced date together
with `month` and `day_of_week` both derived from that same coerced date. -/
theorem date_step_rows_char (t : Table) (h : "date" ∈ t.cols) (r : Row)
    (hr : r ∈ (date_step t).rows) :
    ∃ r0 ∈ t.rows,
      Row.get r "date" = to_datetime (Row.get r0 "date") ∧
      Row.get r "month" = month_of (to_datetime (Row.get r0 "date")) ∧
      Row.get r "day_of_week" = day_of_week_of (to_datetime (Row.get r0 "date")) := by
  unfold date_step at hr
  rw [if_pos h] at hr
  unfold Table.addCol Table.applyCol at hr
  simp only [List.map_map, List.mem_map, Function.comp] at hr
  obtain ⟨r0, hr0, hF⟩ := hr
  subst hF
  refine ⟨r0, hr0, ?_, ?_, ?_⟩
  · rw [row_get_set_ne _ _ _ _ (by decide), row_get_set_ne _ _ _ _ (by decide),
      row_get_set_eq]
  · rw [row_get_set_ne _ _ _ _ (by decide), row_get_set_eq,
      row_get_set_eq]
  · rw [row_get_set_eq, row_get_set_ne _ _ _ _ (by decide), row_get_set_eq]

/-! ## The claims -/

/-- C1: after normalization each `id` value appears exactly once (later
occurrences, in pre-sort row order, are dropped), the reported duplicate
count equals the number of rows removed, and on the two-row `id="42"`
scenario exactly one row survives, carrying the first row's values, with
duplicate count 1. -/
theorem claim_C1 :
    (∀ df out dups, clean_mapmf_data df = .ok (out, dups) →
      (∀ v, (idsOf out.rows).count v = min 1 ((idsOf df.rows).count v)) ∧
        dups + out.rows.length = df.rows.length) ∧
      clean_mapmf_data c1_input = .ok (c1_expected, 1) := by
  constructor
  · intro df out dups h
    obtain ⟨t1, htr, hrows, hdups⟩ := clean_structure df out dups h
    have hids : idsOf t1.rows = idsOf df.rows := ids_transform_cols df t1 htr
    have hperm : List.Perm (idsOf (sort_values_date (drop_duplicates t1.rows [])))
        (idsOf (drop_duplicates t1.rows [])) := by
      unfold idsOf
      exact (sort_values_date_perm _).map _
    constructor
    · intro v
      rw [hrows, hperm.count_eq, count_idsOf_drop_duplicates]
      simp
      rw [hids]
    · have hlen1 : out.rows.length = (drop_duplicates t1.rows []).length := by
        rw [hrows]
        exact (sort_values_date_perm _).length_eq
      have hlen2 : t1.rows.length = df.rows.length := length_eq_of_ids_eq hids
      have hle := drop_duplicates_length_le t1.rows []
      omega
  · rfl

theorem claim_C1_witness :
    clean_mapmf_data c1_input = .ok (c1_expected, 1) ∧
      (∀ v, (idsOf c1_expected.rows).count v = min 1 ((idsOf c1_input.rows).count v)) ∧
        1 + c1_expected.rows.length = c1_input.rows.length :=
  ⟨claim_C1.2, claim_C1.1 c1_input c1_expected 1 claim_C1.2⟩

/-- C2 as stated is false on the code: for the gender sequence
`["Man", "Woman", "Man"]` the substring tally gives a male count of 3, not
2, because "woman" contains "man". -/
theorem claim_C2_counterexample :
    ¬ ((clean_mapmf_data c2_input).map (fun p => cellAt p.1 0 "gender_male_count") =
      .ok (.int 2)) := by
  intro h
  have h3 : (clean_mapmf_data c2_input).map (fun p => cellAt p.1 0 "gender_male_count") =
      .ok (.int 3) := rfl
  rw [h3] at h
  simp at h

/-- C2 amended: the input gender sequence `["Man", "Woman", "Man"]` yields
`gender_male_count = 3` (every element, including "Woman", contains "man"),
`gender_female_count = 1` and `primary_gender = "Man"`. -/
theorem claim_C2_amended :
    (clean_mapmf_data c2_input).map (fun p =>
      (cellAt p.1 0 "gender_male_count", cellAt p.1 0 "gender_female_count",
        cellAt p.1 0 "primary_gender")) = .ok (.int 3, .int 1, .str "Man") := rfl

/-- C3 as stated is false on the code: re-parsing the pipe-joined cell
`"A | B"` does not give a single-element sequence — `ast.literal_eval`
fails on it and the failure is coerced to the empty sequence. -/
theorem claim_C3_counterexample :
    ¬ ∃ x, parse_list_column (list_to_pipe_separated (.list [.str "A", .str "B"])) =
      .list [x] := by
  intro hex
  obtain ⟨x, hx⟩ := hex
  have h0 : parse_list_column (list_to_pipe_separated (.list [.str "A", .str "B"])) =
      .list [] := rfl
  rw [h0] at hx
  simp at hx

/-- C3 amended: a second run of the Normalizer on its own output changes
neither the row count nor the set of `id` values, and re-parsing an
already-pipe-joined cell such as `"A | B"` degrades to the empty sequence
(not a single-element one). -/
theorem claim_C3 :
    (∀ df out dups out2 dups2, clean_mapmf_data df = .ok (out, dups) →
        clean_mapmf_data out = .ok (out2, dups2) →
        out2.rows.length = out.rows.length ∧
          (∀ v, v ∈ idsOf out2.rows ↔ v ∈ idsOf out.rows)) ∧
      parse_list_column (list_to_pipe_separated (.list [.str "A", .str "B"])) = .list [] := by
  constructor
  · intro df out dups out2 dups2 h1 h2
    obtain ⟨t0, htr0, hrows0, _⟩ := clean_structure df out dups h1
    obtain ⟨t1, htr1, hrows1, _⟩ := clean_structure out out2 dups2 h2
    have hids1 : idsOf t1.rows = idsOf out.rows := ids_transform_cols out t1 htr1
    have hnd0 : (idsOf out.rows).Nodup := by
      rw [hrows0]
      have hperm : List.Perm (idsOf (sort_values_date (drop_duplicates t0.rows [])))
          (idsOf (drop_duplicates t0.rows [])) := by
        unfold idsOf
        exact (sort_values_date_perm _).map _
      exact hperm.nodup_iff.mpr (nodup_ids_drop_duplicates t0.rows)
    have hnd1 : (idsOf t1.rows).Nodup := hids1 ▸ hnd0
    have hded : drop_duplicates t1.rows [] = t1.rows :=
      drop_duplicates_eq_self t1.rows [] hnd1 (by simp)
    constructor
    · calc out2.rows.length
          = (sort_values_date (drop_duplicates t1.rows [])).length := by rw [hrows1]
        _ = (drop_duplicates t1.rows []).length := (sort_values_date_perm _).length_eq
        _ = t1.rows.length := by rw [hded]
        _ = out.rows.length := length_eq_of_ids_eq hids1
    · intro v
      have hperm2 : List.Perm (idsOf out2.rows) (idsOf t1.rows) := by
        rw [hrows1, hded]
        unfold idsOf
        exact (sort_values_date_perm _).map _
      rw [hperm2.mem_iff, hids1]
  · rfl

theorem claim_C3_witness :
    clean_mapmf_data c2_input = .ok (c3_out, 0) ∧
      clean_mapmf_data c3_out = .ok (c3_out2, 0) ∧
      c3_out2.rows.length = c3_out.rows.length ∧
      (∀ v, v ∈ idsOf c3_out2.rows ↔ v ∈ idsOf c3_out.rows) := by
  refine ⟨rfl, rfl, ?_⟩
  exact claim_C3.1 c2_input c3_out 0 c3_out2 0 rfl rfl

/-- C4: the claim (and `parse_list_column`'s own docstring, "convert ...
to actual list or return empty list") is right and the code is wrong:
text that parses as a non-list literal is returned unchanged, so a cell
`'abc'` stays raw text and a cell `42` becomes an integer. -/
theorem claim_C4_bug :
    parse_list_column (.str "'abc'") = .str "abc" ∧
      parse_list_column (.str "42") = .int 42 :=
  ⟨rfl, rfl⟩

/-- C5: the claim is right and the code is wrong: a malformed
`type_of_incident` cell `42` survives `parse_list_column` as an integer and
the unguarded `apply(len)` then raises `TypeError`, aborting the run. -/
theorem claim_C5_bug :
    clean_mapmf_data c5_input = .error (.typeError "object of type int has no len") := rfl

/-- C6: an unparseable `date` yields null `date`, `month` and
`day_of_week`; a parseable date has month 1-12 and a full weekday name. -/
theorem claim_C6 :
    (∀ t r, "date" ∈ t.cols → r ∈ (date_step t).rows → Row.get r "date" = PyVal.none →
        Row.get r "month" = PyVal.none ∧ Row.get r "day_of_week" = PyVal.none) ∧
      (∀ s d, to_datetime (.str s) = .date d →
        (1 ≤ d.month ∧ d.month ≤ 12) ∧ day_name d ∈ dayNames) ∧
      (clean_mapmf_data c6_input).map (fun p =>
        (cellAt p.1 0 "date", cellAt p.1 0 "month", cellAt p.1 0 "day_of_week")) =
        .ok (PyVal.none, PyVal.none, PyVal.none) := by
  refine ⟨?_, ?_, rfl⟩
  · intro t r hcol hr hnone
    obtain ⟨r0, _, hdate, hmonth, hdow⟩ := date_step_rows_char t hcol r hr
    rw [hnone] at hdate
    rw [hmonth, hdow, ← hdate]
    exact ⟨rfl, rfl⟩
  · intro s d h
    have h2 : (match parseISODate s with
      | some d0 => PyVal.date d0
      | Option.none => PyVal.none) = PyVal.date d := h
    cases hp : parseISODate s with
    | none =>
      rw [hp] at h2
      exact PyVal.noConfusion h2
    | some d0 =>
      rw [hp] at h2
      have hd : d0 = d := by injection h2
      subst hd
      exact ⟨parseISODate_month_bounds s d0 hp, day_name_mem_dayNames d0⟩

theorem claim_C6_witness :
    ("date" ∈ c6_tbl.cols ∧ c6_row ∈ (date_step c6_tbl).rows ∧
        Row.get c6_row "date" = PyVal.none) ∧
      (Row.get c6_row "month" = PyVal.none ∧ Row.get c6_row "day_of_week" = PyVal.none) ∧
      to_datetime (.str "2024-01-01") = PyVal.date ⟨2024, 1, 1⟩ ∧
      ((1 ≤ (1 : Nat) ∧ (1 : Nat) ≤ 12) ∧ day_name ⟨2024, 1, 1⟩ ∈ dayNames) := by
  have hmem : c6_row ∈ (date_step c6_tbl).rows := by
    have : (date_step c6_tbl).rows = [c6_row] := rfl
    rw [this]
    exact List.mem_singleton.mpr rfl
  exact ⟨⟨by decide, hmem, rfl⟩, claim_C6.1 c6_tbl c6_row (by decide) hmem rfl, rfl,
    claim_C6.2.1 "2024-01-01" ⟨2024, 1, 1⟩ rfl⟩

/-- C7: the final table is ordered by date descending (rows pairwise
related by the descending date comparison, nulls last), and the three-date
scenario comes out as 2024-06-01, 2024-01-01, 2023-06-15 (ids 3, 1, 2). -/
theorem claim_C7 :
    (∀ df out dups, clean_mapmf_data df = .ok (out, dups) → out.rows.Pairwise dateGe) ∧
      (clean_mapmf_data c7_input).map (fun p =>
        (idsOf p.1.rows, p.1.rows.map (fun r => Row.get r "date"))) =
        .ok ([.str "3", .str "1", .str "2"],
          [.date ⟨2024, 6, 1⟩, .date ⟨2024, 1, 1⟩, .date ⟨2023, 6, 15⟩]) := by
  constructor
  · intro df out dups h
    obtain ⟨t1, _, hrows, _⟩ := clean_structure df out dups h
    rw [hrows]
    exact pairwise_sort_values_date _
  · rfl

theorem claim_C7_witness :
    clean_mapmf_data c7_input = .ok (c7_out, 0) ∧ c7_out.rows.Pairwise dateGe :=
  ⟨rfl, claim_C7.1 c7_input c7_out 0 rfl⟩

/-- C8: the Retriever's accumulation loop is total by construction (its
measure `target - len(acc)` shrinks on every continuing iteration) and
stops exactly with one of the four documented reasons, each of which holds
of the returned state. -/
theorem claim_C8 (α : Type) (fetch : Nat → Option (PageResult α)) (target : Nat) :
    stopSound fetch target 1000 (scrape_all_alerts fetch target) ∧
      ∀ batch offset acc, stopSound fetch target batch
        (scrape_loop fetch target acc offset batch) :=
  ⟨scrape_loop_stop_sound fetch target 1000 0 [],
   fun batch offset acc => scrape_loop_stop_sound fetch target batch offset acc⟩

/-- C9: `region_level_1`/`region_level_2` are the elements at indices 1
and 2 of `region_names` when present, null otherwise; on
`['CityX', 'CountryY', 'RegionZ']` they are CountryY and RegionZ. -/
theorem claim_C9 :
    (∀ xs : List PyVal, region_level_1_of (.list xs) = (xs[1]?).getD PyVal.none ∧
        region_level_2_of (.list xs) = (xs[2]?).getD PyVal.none) ∧
      (clean_mapmf_data c9_input).map (fun p =>
        (cellAt p.1 0 "region_level_1", cellAt p.1 0 "region_level_2")) =
        .ok (.str "CountryY", .str "RegionZ") := by
  constructor
  · intro xs
    constructor
    · rcases xs with _ | ⟨a, _ | ⟨b, rest⟩⟩ <;> simp [region_level_1_of]
    · rcases xs with _ | ⟨a, _ | ⟨b, _ | ⟨c, rest⟩⟩⟩ <;> simp [region_level_2_of]
  · rfl

/-- C10: in the final sort every null-date row is placed after all rows
with a parseable date, and the null-date rows keep their pre-sort
(post-dedup) relative order. -/
theorem claim_C10 (df out : Table) (dups : Nat)
    (h : clean_mapmf_data df = .ok (out, dups)) :
    ∃ t1 pfx, transform_cols df = .ok t1 ∧
      out.rows = pfx ++ (drop_duplicates t1.rows []).filter (fun r => !(dateOf r).isSome) ∧
      ∀ r ∈ pfx, (dateOf r).isSome := by
  obtain ⟨t1, htr, hrows, _⟩ := clean_structure df out dups h
  obtain ⟨pfx, hsplit, hdated⟩ := sort_values_date_split (drop_duplicates t1.rows [])
  exact ⟨t1, pfx, htr, by rw [hrows, hsplit], hdated⟩

theorem claim_C10_witness :
    clean_mapmf_data c10_input = .ok (c10_out, 0) ∧
      ∃ t1 pfx, transform_cols c10_input = .ok t1 ∧
        c10_out.rows =
          pfx ++ (drop_duplicates t1.rows []).filter (fun r => !(dateOf r).isSome) ∧
        ∀ r ∈ pfx, (dateOf r).isSome :=
  ⟨rfl, claim_C10 c10_input c10_out 0 rfl⟩

end Mapmf
